import Mathlib

/-!
Shallow embedding of the Voltorb Flip implementation (src/VoltorbFilp.py)
and verification of its specification claims.

The game core consists of: a static level catalog, board generation
from a composition, hint calculation, a per-round state machine
(flip / mark / win / loss), a probabilistic level-decrease policy, and
score persistence.  Python floats are modelled as exact rationals,
Python ints as integers, the 5 x 5 nested list of cells as a function
from indices, and `random` draws as explicit parameters.  Fallible
operations (Python list indexing that can raise IndexError, unpickling
that can raise) are modelled with Option / Except.
-/

namespace Vflip

/-- One grid position, mirroring the Python class Cell: value, mine
flag, flipped flag and the advisory mark flag.  The constructor sets
flipped and marked to false. -/
structure Cell where
  value : ℤ
  is_voltorb : Bool
  flipped : Bool
  marked : Bool
deriving DecidableEq, Repr

/-- Cell.mk of the Python source: only value and the mine flag are
supplied, flipped and marked start false. -/
def mkCell (value : ℤ) (is_voltorb : Bool) : Cell :=
  { value := value, is_voltorb := is_voltorb, flipped := false, marked := false }

/-- The 5 x 5 grid of cells: the nested Python list board[i][j],
modelled as a function of the two in-range indices. -/
def Grid : Type := Fin 5 → Fin 5 → Cell

instance : DecidableEq Grid :=
  fun g h => Fintype.decidablePiFintype g h

/-- Pointwise update of a grid at one coordinate, modelling in-place
mutation of the cell object board[row][col]. -/
def setCell (g : Grid) (row col : Fin 5) (c : Cell) : Grid :=
  fun i j => if i = row ∧ j = col then c else g i j

/-- A board instance, mirroring the fields set by Board.__init__:
the level, the grid, the two hint lists, the round score (starts at 1),
the snapshot of the total score, and the two terminal flags. -/
structure Board where
  level : ℤ
  board : Grid
  row_hints : List (ℤ × ℤ)
  col_hints : List (ℤ × ℤ)
  score : ℤ
  total_score : ℤ
  game_over : Bool
  win : Bool
deriving DecidableEq

/-- Board.check_win: scans every cell and returns false as soon as it
sees an unflipped cell of value greater than 1, true otherwise. -/
def check_win (b : Board) : Bool :=
  decide (∀ i j : Fin 5, 1 < (b.board i j).value → (b.board i j).flipped = true)

/-- Body of Board.flip_cell once the two indices have resolved to
in-range positions: no-op on an already flipped cell; otherwise set
flipped, then either set game_over (mine) or multiply the score by the
value when it exceeds 1 and set win when check_win passes. -/
def flipCellAt (b : Board) (row col : Fin 5) : Board :=
  let cell := b.board row col
  if cell.flipped then b
  else
    let b1 : Board := { b with board := setCell b.board row col { cell with flipped := true } }
    if cell.is_voltorb then
      { b1 with game_over := true }
    else
      let b2 : Board := if 1 < cell.value then { b1 with score := b1.score * cell.value } else b1
      if check_win b2 then { b2 with win := true } else b2

/-- Python list indexing for a list of length 5: indices 0..4 are used
as written, -5..-1 wrap around to the end of the list, anything else
raises IndexError (none). -/
def pyIndex (i : ℤ) : Option (Fin 5) :=
  if h : 0 ≤ i ∧ i < 5 then
    some ⟨i.toNat, by omega⟩
  else if h2 : -5 ≤ i ∧ i < 0 then
    some ⟨(i + 5).toNat, by omega⟩
  else
    none

/-- Board.flip_cell as called with arbitrary integer coordinates: the
subscript board[row][col] resolves both indices with Python list
semantics (IndexError modelled as none), then the flip body runs. -/
def flip_cell (b : Board) (row col : ℤ) : Option Board :=
  match pyIndex row, pyIndex col with
  | some r, some c => some (flipCellAt b r c)
  | _, _ => none

/-- Body of Board.toggle_mark at in-range positions: marking is a no-op
on a flipped cell, otherwise it inverts the marked flag. -/
def toggleMarkAt (b : Board) (row col : Fin 5) : Board :=
  let cell := b.board row col
  if cell.flipped then b
  else { b with board := setCell b.board row col { cell with marked := !cell.marked } }

/-- Board.toggle_mark with arbitrary integer coordinates, resolving the
subscript with Python list semantics as in flip_cell. -/
def toggle_mark (b : Board) (row col : ℤ) : Option Board :=
  match pyIndex row, pyIndex col with
  | some r, some c => some (toggleMarkAt b r c)
  | _, _ => none

/-- The mouse handler of the main loop dispatches a left click to
flip_cell only when neither terminal flag is set (and the menu is
hidden); otherwise the board is left untouched. -/
def dispatch_flip (b : Board) (row col : ℤ) : Option Board :=
  if b.game_over = false ∧ b.win = false then flip_cell b row col else some b

/-- The mouse handler of the main loop dispatches a right click to
toggle_mark only when neither terminal flag is set; otherwise the board
is left untouched. -/
def dispatch_toggle_mark (b : Board) (row col : ℤ) : Option Board :=
  if b.game_over = false ∧ b.win = false then toggle_mark b row col else some b

/-- The inner accumulation of Board.calculate_hints over one line of
cells: a mine increments the mine counter, any other cell adds its
value to the points counter.  The pair is (points, voltorbs), the order
in which the source appends them. -/
def hintAccum (cells : List Cell) : ℤ × ℤ :=
  cells.foldl
    (fun acc cell =>
      if cell.is_voltorb then (acc.1, acc.2 + 1) else (acc.1 + cell.value, acc.2))
    (0, 0)

/-- The cells of row i in iteration order, board[i][j] for j in
range(5). -/
def rowCells (g : Grid) (i : Fin 5) : List Cell :=
  (List.finRange 5).map (fun j => g i j)

/-- The cells of column i in iteration order, board[j][i] for j in
range(5). -/
def colCells (g : Grid) (i : Fin 5) : List Cell :=
  (List.finRange 5).map (fun j => g j i)

/-- Board.calculate_hints: for i in range(5) accumulate the row and
column counters over the inner loop and append the two pairs. -/
def calculate_hints (g : Grid) : List (ℤ × ℤ) × List (ℤ × ℤ) :=
  ((List.finRange 5).map (fun i => hintAccum (rowCells g i)),
   (List.finRange 5).map (fun i => hintAccum (colCells g i)))

/-- One board composition of the level catalog: the dict with keys 2s,
3s and Voltorbs. -/
structure Composition where
  twos : ℕ
  threes : ℕ
  voltorbs : ℕ
deriving DecidableEq, Repr

/-- The LEVEL_CONFIGURATIONS dict: levels 1 to 8, five compositions
each. -/
def LEVEL_CONFIGURATIONS : List (ℤ × List Composition) :=
  [ (1, [⟨3, 1, 6⟩, ⟨0, 3, 6⟩, ⟨5, 0, 6⟩, ⟨2, 2, 6⟩, ⟨4, 1, 6⟩]),
    (2, [⟨1, 3, 7⟩, ⟨6, 0, 7⟩, ⟨3, 2, 7⟩, ⟨0, 4, 7⟩, ⟨5, 1, 7⟩]),
    (3, [⟨2, 3, 8⟩, ⟨7, 0, 8⟩, ⟨4, 2, 8⟩, ⟨1, 4, 8⟩, ⟨6, 1, 8⟩]),
    (4, [⟨3, 3, 8⟩, ⟨0, 5, 8⟩, ⟨8, 0, 10⟩, ⟨5, 2, 10⟩, ⟨2, 4, 10⟩]),
    (5, [⟨7, 1, 10⟩, ⟨4, 3, 10⟩, ⟨1, 5, 10⟩, ⟨9, 0, 10⟩, ⟨6, 2, 10⟩]),
    (6, [⟨3, 4, 10⟩, ⟨0, 6, 10⟩, ⟨8, 1, 10⟩, ⟨5, 3, 10⟩, ⟨2, 5, 10⟩]),
    (7, [⟨7, 2, 10⟩, ⟨4, 4, 10⟩, ⟨1, 6, 13⟩, ⟨9, 1, 13⟩, ⟨6, 3, 10⟩]),
    (8, [⟨0, 7, 10⟩, ⟨8, 2, 10⟩, ⟨5, 4, 10⟩, ⟨2, 6, 10⟩, ⟨7, 3, 10⟩]) ]

/-- max(LEVEL_CONFIGURATIONS.keys()): the largest key of the catalog. -/
def maxLevelKey : ℤ :=
  (LEVEL_CONFIGURATIONS.map Prod.fst).foldl max 0

/-- The dict lookup LEVEL_CONFIGURATIONS.get(level, default) performed
by generate_board: a missing key falls back to the compositions of the
largest defined level. -/
def compositionsFor (level : ℤ) : List Composition :=
  ((LEVEL_CONFIGURATIONS.lookup level).getD
    ((LEVEL_CONFIGURATIONS.lookup maxLevelKey).getD []))

/-- The flat cell list built by generate_board from the chosen
composition, before the shuffle: the mines, then the times-two cells,
then the times-three cells, then the remaining times-one cells.  The
count of ones is 25 minus the other three counts; Nat subtraction
matches the Python range over a possibly negative count, which is
empty. -/
def generate_cells (c : Composition) : List Cell :=
  List.replicate c.voltorbs (mkCell 0 true) ++
  List.replicate c.twos (mkCell 2 false) ++
  List.replicate c.threes (mkCell 3 false) ++
  List.replicate (25 - c.voltorbs - c.twos - c.threes) (mkCell 1 false)

/-- The row-major partition of the shuffled flat list into the 5 x 5
grid performed at the end of generate_board: cell (i, j) is element
i * 5 + j of the list.  The default cell is never reached on a 25-cell
list. -/
def toGrid (cells : List Cell) : Grid :=
  fun i j => cells.getD (i.val * 5 + j.val) (mkCell 0 false)

/-- Board.__init__ given the generated grid (the RNG choice and shuffle
are resolved by the caller): hints are computed, the round score starts
at 1 and both terminal flags start false.  The win condition is not
evaluated here. -/
def Board.init (level total_score : ℤ) (g : Grid) : Board :=
  { level := level
    board := g
    row_hints := (calculate_hints g).1
    col_hints := (calculate_hints g).2
    score := 1
    total_score := total_score
    game_over := false
    win := false }

/-- The function calculate_level_decrease with the random.random()
draws supplied as an explicit stream of rationals; each consumed draw
is removed from the returned stream, and an exhausted stream is none.
The decrease chance is 0.1 plus 0.05 per level above 1, capped at 0.9;
below the first draw the second draw picks a decrease of 1 (below 0.7),
of 2 (below 0.7 + 0.2) or a reset to level 1. -/
def calculate_level_decrease (level : ℤ) (draws : List ℚ) :
    Option ((ℤ × String) × List ℚ) :=
  let baseline_chance : ℚ := 1/10
  let per_level_increase : ℚ := 1/20
  let chance0 : ℚ := baseline_chance + ((level : ℚ) - 1) * per_level_increase
  let total_decrease_chance : ℚ := if chance0 > 9/10 then 9/10 else chance0
  match draws with
  | [] => none
  | rand_value :: rest =>
    if rand_value < total_decrease_chance then
      match rest with
      | [] => none
      | rand_decrease :: rest2 =>
        if rand_decrease < 7/10 then
          some ((max 1 (level - 1), "decreased by 1"), rest2)
        else if rand_decrease < 7/10 + 2/10 then
          some ((max 1 (level - 2), "decreased by 2"), rest2)
        else
          some ((1, "reset to Level 1"), rest2)
    else
      some ((level, "no change"), rest)

/-- A value decoded by pickle.load: the structured dict shape with its
two optional integer fields, the legacy bare-integer shape, or any
other pickled value. -/
inductive PyData where
  | pdict (total_score high_score : Option ℤ)
  | pint (n : ℤ)
  | pother
deriving DecidableEq

/-- A Python value returned as the total score: an integer or a value
of any other type passed through unchanged. -/
inductive PyVal where
  | int (n : ℤ)
  | other
deriving DecidableEq

/-- The state of the score.dat file as load_score finds it: absent,
present but rejected by pickle.load, or present and decoding to a
value. -/
inductive Storage where
  | absent
  | corrupt
  | stored (d : PyData)
deriving DecidableEq

/-- The function load_score: (0, 0) when the file is absent; the dict
shape read with .get defaults of 0; any non-dict value used directly as
the total score with high score 0.  pickle.load raising on corrupt
bytes is not caught, modelled as the error branch. -/
def load_score (s : Storage) : Except Unit (PyVal × ℤ) :=
  match s with
  | .absent => .ok (.int 0, 0)
  | .corrupt => .error ()
  | .stored (.pdict t h) => .ok (.int (t.getD 0), h.getD 0)
  | .stored (.pint n) => .ok (.int n, 0)
  | .stored .pother => .ok (.other, 0)

/-- The spend-points branch of the main event loop (the S key on the
level menu): with at least 100 total points it deducts 100 and raises
the level by one, otherwise it changes nothing.  The boolean reports
whether the purchase was accepted. -/
def spend_points (level total_score : ℤ) : ℤ × ℤ × Bool :=
  if 100 ≤ total_score then (level + 1, total_score - 100, true)
  else (level, total_score, false)

/-- A concrete level-1 board used to instantiate the theorems: the
first level-1 composition laid out by the identity shuffle — six mines,
three times-two cells, one times-three cell, fifteen times-one cells. -/
def exBoard : Board :=
  Board.init 1 0 (toGrid (generate_cells ⟨3, 1, 6⟩))

/-- A concrete flat cell list with a mine in front, a times-two cell
second and times-one cells elsewhere, used to build a lost board that
still has an unflipped multiplier. -/
def cellsC2 : List Cell :=
  mkCell 0 true :: mkCell 2 false :: List.replicate 23 (mkCell 1 false)

/-- The zero-multiplier composition of the win-on-generation scenario:
no times-two and no times-three cells, six mines. -/
def compC3 : Composition := ⟨0, 0, 6⟩

/-- The state reached by the safe branch of flip_cell before the win
check: the target cell is flipped and the score is multiplied by the
value when that value exceeds 1. -/
def flipSafeResult (b : Board) (row col : Fin 5) : Board :=
  { b with
    board := setCell b.board row col { b.board row col with flipped := true }
    score :=
      if 1 < (b.board row col).value then b.score * (b.board row col).value else b.score }

/-- A lost board reached by flipping the mine of cellsC2: terminal with
game_over set, while the times-two cell at (0, 1) is still unflipped. -/
def bC2 : Board := flipCellAt (Board.init 1 0 (toGrid cellsC2)) 0 0

/-- Modelled from the spec for comparison with the code: the decrease
chance written as min(0.9, 0.10 + 0.05 x (level - 1)). -/
def specDecreaseChance (level : ℤ) : ℚ :=
  min (9/10) (1/10 + ((level : ℚ) - 1) * (1/20))

theorem pyIndex_coe (r : Fin 5) : pyIndex (r : ℤ) = some r := by
  have h5 : (r : ℤ) < 5 := by exact_mod_cast r.isLt
  simp only [pyIndex, dif_pos (⟨Int.natCast_nonneg _, h5⟩ : 0 ≤ (r : ℤ) ∧ (r : ℤ) < 5)]
  simp [Fin.ext_iff]

theorem hintAccum_go (cells : List Cell) (p v : ℤ) :
    cells.foldl
      (fun acc cell =>
        if cell.is_voltorb then (acc.1, acc.2 + 1) else (acc.1 + cell.value, acc.2))
      (p, v) =
    (p + (cells.map (fun cell => if cell.is_voltorb then 0 else cell.value)).sum,
     v + (cells.map (fun cell => if cell.is_voltorb then (1 : ℤ) else 0)).sum) := by
  induction cells generalizing p v with
  | nil => simp
  | cons a t ih =>
    by_cases ha : a.is_voltorb <;>
      simp [ha, ih, Prod.ext_iff] <;> ring

theorem hintAccum_eq (cells : List Cell) :
    hintAccum cells =
      ((cells.map (fun cell => if cell.is_voltorb then 0 else cell.value)).sum,
       (cells.map (fun cell => if cell.is_voltorb then (1 : ℤ) else 0)).sum) := by
  simpa [hintAccum] using hintAccum_go cells 0 0

theorem hintAccum_line (f : Fin 5 → Cell) :
    hintAccum ((List.finRange 5).map f) =
      (∑ j ∈ Finset.univ.filter (fun j : Fin 5 => (f j).is_voltorb = false), (f j).value,
       (((Finset.univ.filter (fun j : Fin 5 => (f j).is_voltorb = true)).card : ℤ))) := by
  rw [hintAccum_eq, Prod.ext_iff]
  constructor
  · simp only [List.map_map, Function.comp]
    rw [← Fin.sum_univ_def, Finset.sum_filter]
    exact Finset.sum_congr rfl (fun j _ => by cases hb : (f j).is_voltorb <;> simp [hb])
  · simp only [List.map_map, Function.comp]
    rw [← Fin.sum_univ_def, Finset.card_filter]
    push_cast
    exact Finset.sum_congr rfl (fun j _ => by cases hb : (f j).is_voltorb <;> simp [hb])

/-- C4: calculate_hints yields, for each row, the pair of the summed
values of the non-mine cells and the count of mine cells of that row,
and the transposed computation for each column; it is a pure function
of the grid, so equal grids always yield equal hints. -/
theorem calculate_hints_spec (g : Grid) :
    (calculate_hints g).1 =
      (List.finRange 5).map (fun i =>
        (∑ j ∈ Finset.univ.filter (fun j : Fin 5 => (g i j).is_voltorb = false), (g i j).value,
         ((Finset.univ.filter (fun j : Fin 5 => (g i j).is_voltorb = true)).card : ℤ))) ∧
    (calculate_hints g).2 =
      (List.finRange 5).map (fun i =>
        (∑ j ∈ Finset.univ.filter (fun j : Fin 5 => (g j i).is_voltorb = false), (g j i).value,
         ((Finset.univ.filter (fun j : Fin 5 => (g j i).is_voltorb = true)).card : ℤ))) ∧
    ∀ g2 : Grid, (∀ i j : Fin 5, g2 i j = g i j) → calculate_hints g2 = calculate_hints g := by
  refine ⟨?_, ?_, ?_⟩
  · exact List.map_congr_left (fun i _ => hintAccum_line (fun j => g i j))
  · exact List.map_congr_left (fun i _ => hintAccum_line (fun j => g j i))
  · intro g2 hg
    have : g2 = g := funext (fun i => funext (fun j => hg i j))
    rw [this]

theorem check_win_iff (b : Board) :
    check_win b = true ↔
      ∀ i j : Fin 5, 1 < (b.board i j).value → (b.board i j).flipped = true := by
  simp [check_win]

theorem flipCellAt_flipped (b : Board) (row col : Fin 5)
    (h : (b.board row col).flipped = true) : flipCellAt b row col = b := by
  simp [flipCellAt, h]

theorem flipCellAt_mine (b : Board) (row col : Fin 5)
    (h : (b.board row col).flipped = false) (hm : (b.board row col).is_voltorb = true) :
    flipCellAt b row col =
      { b with
        board := setCell b.board row col { b.board row col with flipped := true }
        game_over := true } := by
  simp [flipCellAt, h, hm]

theorem flipCellAt_safe (b : Board) (row col : Fin 5)
    (h : (b.board row col).flipped = false) (hm : (b.board row col).is_voltorb = false) :
    flipCellAt b row col =
      (if check_win (flipSafeResult b row col) then
        { flipSafeResult b row col with win := true }
      else flipSafeResult b row col) := by
  by_cases hv : 1 < (b.board row col).value <;>
    simp [flipCellAt, h, hm, flipSafeResult, hv]

theorem flipCellAt_not_both (b : Board) (r c : Fin 5)
    (hgo : b.game_over = false) (hwin : b.win = false) :
    ¬((flipCellAt b r c).game_over = true ∧ (flipCellAt b r c).win = true) := by
  by_cases hf : (b.board r c).flipped = true
  · simp [flipCellAt_flipped b r c hf, hgo]
  · have hf2 : (b.board r c).flipped = false := by simpa using hf
    by_cases hm : (b.board r c).is_voltorb = true
    · simp [flipCellAt_mine b r c hf2 hm, hwin]
    · have hm2 : (b.board r c).is_voltorb = false := by simpa using hm
      rw [flipCellAt_safe b r c hf2 hm2]
      split_ifs with hcw
      · simp [flipSafeResult, hgo]
      · simp [flipSafeResult, hgo]

/-- C1: on a non-terminal board every in-range flip resolves to the
flip body; the body is a no-op on an already flipped cell, and
otherwise sets the flipped flag, transitions to Lost on a mine,
multiplies the round score by the value of a multiplier cell (a
times-one cell leaves it unchanged), and after a non-mine flip sets the
win flag exactly when every cell of value greater than 1 is flipped. -/
theorem flip_cell_spec (b : Board) (r c : Fin 5)
    (hgo : b.game_over = false) (hwin : b.win = false) :
    flip_cell b (r : ℤ) (c : ℤ) = some (flipCellAt b r c) ∧
    ((b.board r c).flipped = true → flipCellAt b r c = b) ∧
    ((b.board r c).flipped = false →
      ((flipCellAt b r c).board r c).flipped = true ∧
      ((b.board r c).is_voltorb = true →
        (flipCellAt b r c).game_over = true ∧ (flipCellAt b r c).win = false) ∧
      ((b.board r c).is_voltorb = false →
        (flipCellAt b r c).game_over = false ∧
        (flipCellAt b r c).score =
          (if 1 < (b.board r c).value then b.score * (b.board r c).value else b.score) ∧
        ((flipCellAt b r c).win = true ↔
          ∀ i j : Fin 5, 1 < ((flipCellAt b r c).board i j).value →
            ((flipCellAt b r c).board i j).flipped = true))) := by
  refine ⟨by simp [flip_cell, pyIndex_coe], fun h => flipCellAt_flipped b r c h, fun h => ?_⟩
  by_cases hm : (b.board r c).is_voltorb = true
  · rw [flipCellAt_mine b r c h hm]
    exact ⟨by simp [setCell], fun _ => ⟨rfl, hwin⟩, fun hm2 => by simp [hm2] at hm⟩
  · have hm2 : (b.board r c).is_voltorb = false := by simpa using hm
    rw [flipCellAt_safe b r c h hm2]
    by_cases hcw : check_win (flipSafeResult b r c) = true
    · rw [if_pos hcw]
      refine ⟨by simp [flipSafeResult, setCell], fun hmm => by simp [hmm] at hm2, ?_⟩
      refine fun _ => ⟨hgo, rfl, ⟨fun _ => ?_, fun _ => rfl⟩⟩
      exact (check_win_iff _).mp hcw
    · rw [if_neg hcw]
      refine ⟨by simp [flipSafeResult, setCell], fun hmm => by simp [hmm] at hm2, ?_⟩
      refine fun _ => ⟨hgo, rfl, ⟨fun hw => ?_, fun hall => ?_⟩⟩
      · exfalso
        simp [flipSafeResult, hwin] at hw
      · exact absurd ((check_win_iff _).mpr hall) hcw

/-- C1 witness: the spec of flip_cell instantiated on the concrete
level-1 board at coordinate (0, 0). -/
theorem flip_cell_spec_witness :
    (exBoard.game_over = false ∧ exBoard.win = false) ∧
    (flip_cell exBoard ((0 : Fin 5) : ℤ) ((0 : Fin 5) : ℤ) =
      some (flipCellAt exBoard 0 0) ∧
    ((exBoard.board 0 0).flipped = true → flipCellAt exBoard 0 0 = exBoard) ∧
    ((exBoard.board 0 0).flipped = false →
      ((flipCellAt exBoard 0 0).board 0 0).flipped = true ∧
      ((exBoard.board 0 0).is_voltorb = true →
        (flipCellAt exBoard 0 0).game_over = true ∧ (flipCellAt exBoard 0 0).win = false) ∧
      ((exBoard.board 0 0).is_voltorb = false →
        (flipCellAt exBoard 0 0).game_over = false ∧
        (flipCellAt exBoard 0 0).score =
          (if 1 < (exBoard.board 0 0).value then
            exBoard.score * (exBoard.board 0 0).value else exBoard.score) ∧
        ((flipCellAt exBoard 0 0).win = true ↔
          ∀ i j : Fin 5, 1 < ((flipCellAt exBoard 0 0).board i j).value →
            ((flipCellAt exBoard 0 0).board i j).flipped = true)))) :=
  ⟨⟨rfl, rfl⟩, flip_cell_spec exBoard 0 0 rfl rfl⟩

/-- C10: flipping an unflipped mine cell on a non-terminal board sets
game_over and the flipped flag of that one cell only: the score, level,
total score, hints and every other cell are unchanged, and the win flag
is not set in that call. -/
theorem flip_mine_frame (b : Board) (r c : Fin 5)
    (hgo : b.game_over = false) (hwin : b.win = false)
    (hf : (b.board r c).flipped = false) (hm : (b.board r c).is_voltorb = true) :
    (flipCellAt b r c).game_over = true ∧
    (flipCellAt b r c).win = false ∧
    (flipCellAt b r c).score = b.score ∧
    (flipCellAt b r c).level = b.level ∧
    (flipCellAt b r c).total_score = b.total_score ∧
    (flipCellAt b r c).row_hints = b.row_hints ∧
    (flipCellAt b r c).col_hints = b.col_hints ∧
    (flipCellAt b r c).board r c = { b.board r c with flipped := true } ∧
    (∀ i j : Fin 5, ¬(i = r ∧ j = c) → (flipCellAt b r c).board i j = b.board i j) := by
  rw [flipCellAt_mine b r c hf hm]
  refine ⟨rfl, hwin, rfl, rfl, rfl, rfl, rfl, by simp [setCell], ?_⟩
  intro i j hij
  simp [setCell, hij]

/-- C10 witness: the frame property of a mine flip on the concrete
level-1 board, whose cell (0, 0) is an unflipped mine. -/
theorem flip_mine_frame_witness :
    (exBoard.game_over = false ∧ exBoard.win = false ∧
     (exBoard.board 0 0).flipped = false ∧ (exBoard.board 0 0).is_voltorb = true) ∧
    ((flipCellAt exBoard 0 0).game_over = true ∧
     (flipCellAt exBoard 0 0).win = false ∧
     (flipCellAt exBoard 0 0).score = exBoard.score ∧
     (flipCellAt exBoard 0 0).level = exBoard.level ∧
     (flipCellAt exBoard 0 0).total_score = exBoard.total_score ∧
     (flipCellAt exBoard 0 0).row_hints = exBoard.row_hints ∧
     (flipCellAt exBoard 0 0).col_hints = exBoard.col_hints ∧
     (flipCellAt exBoard 0 0).board 0 0 = { exBoard.board 0 0 with flipped := true } ∧
     (∀ i j : Fin 5, ¬(i = (0 : Fin 5) ∧ j = (0 : Fin 5)) →
       (flipCellAt exBoard 0 0).board i j = exBoard.board i j)) :=
  ⟨⟨rfl, rfl, by decide, by decide⟩,
   flip_mine_frame exBoard 0 0 rfl rfl (by decide) (by decide)⟩

/-- C2 counterexample: flip_cell itself never consults the terminal
flags, so on the concrete lost board bC2 a further flip still mutates
the cell, updates the score, and even sets win, leaving both terminal
flags true at once. -/
theorem terminal_board_mutates :
    bC2.game_over = true ∧ bC2.win = false ∧
    (bC2.board 0 1).flipped = false ∧
    ((flipCellAt bC2 0 1).board 0 1).flipped = true ∧
    (flipCellAt bC2 0 1).score = 2 ∧
    (flipCellAt bC2 0 1).game_over = true ∧
    (flipCellAt bC2 0 1).win = true := by decide

/-- C2 amended: the terminal guard lives in the main event loop, not in
the Board methods; the guarded dispatch leaves terminal boards entirely
unchanged, and boards produced by dispatched flips never carry both
terminal flags at once. -/
theorem dispatch_terminal_frozen (b : Board) (row col : ℤ)
    (hterm : b.game_over = true ∨ b.win = true) :
    dispatch_flip b row col = some b ∧
    dispatch_toggle_mark b row col = some b ∧
    (∀ b0 b1 : Board, ¬(b0.game_over = true ∧ b0.win = true) →
      dispatch_flip b0 row col = some b1 →
      ¬(b1.game_over = true ∧ b1.win = true)) := by
  have hguard : ¬(b.game_over = false ∧ b.win = false) := by
    rcases hterm with h | h <;> simp [h]
  refine ⟨by simp [dispatch_flip, hguard], by simp [dispatch_toggle_mark, hguard], ?_⟩
  intro b0 b1 hnb hd
  by_cases hg : b0.game_over = false ∧ b0.win = false
  · rw [dispatch_flip, if_pos hg] at hd
    rcases hrow : pyIndex row with _ | r
    · simp [flip_cell, hrow] at hd
    · rcases hcol : pyIndex col with _ | c
      · simp [flip_cell, hrow, hcol] at hd
      · simp only [flip_cell, hrow, hcol, Option.some.injEq] at hd
        exact hd ▸ flipCellAt_not_both b0 r c hg.1 hg.2
  · rw [dispatch_flip, if_neg hg] at hd
    have hb : b0 = b1 := Option.some.inj hd
    exact hb ▸ hnb

/-- C2 witness: the guarded dispatch instantiated on the concrete lost
board bC2 at coordinate (0, 1). -/
theorem dispatch_terminal_frozen_witness :
    (bC2.game_over = true ∨ bC2.win = true) ∧
    (dispatch_flip bC2 0 1 = some bC2 ∧
     dispatch_toggle_mark bC2 0 1 = some bC2 ∧
     (∀ b0 b1 : Board, ¬(b0.game_over = true ∧ b0.win = true) →
       dispatch_flip b0 0 1 = some b1 →
       ¬(b1.game_over = true ∧ b1.win = true))) :=
  ⟨Or.inl (by decide), dispatch_terminal_frozen bC2 0 1 (Or.inl (by decide))⟩

theorem getD_default_or_mem (l : List Cell) (n : ℕ) (d : Cell) :
    l.getD n d = d ∨ l.getD n d ∈ l := by
  induction l generalizing n with
  | nil => left; simp
  | cons a t ih =>
    cases n with
    | zero => right; simp
    | succ m =>
      rcases ih m with h | h
      · left; simpa using h
      · right
        rw [List.getD_cons_succ]
        exact List.mem_cons_of_mem a h

theorem generate_cells_no_multiplier (c : Composition)
    (h2 : c.twos = 0) (h3 : c.threes = 0) :
    ∀ x ∈ generate_cells c, x.value ≤ 1 ∧ x.flipped = false := by
  intro x hx
  unfold generate_cells at hx
  rw [h2, h3] at hx
  simp only [List.replicate_zero, List.append_nil, List.nil_append, List.mem_append,
    List.mem_replicate] at hx
  rcases hx with ⟨-, rfl⟩ | ⟨-, rfl⟩ <;> simp [mkCell]

/-- C3 counterexample: a board generated from the zero-multiplier
composition (no twos, no threes, six mines) is not Won upon generation:
its win flag is false even though the win condition already holds and
the round score is 1, because the constructor never runs the win
check. -/
theorem board_init_win_false :
    (Board.init 1 0 (toGrid (generate_cells compC3))).win = false ∧
    (Board.init 1 0 (toGrid (generate_cells compC3))).score = 1 ∧
    check_win (Board.init 1 0 (toGrid (generate_cells compC3))) = true := by
  decide

/-- C3 amended: a board generated from a composition with no
multiplier cells starts with win = false and roundScore = 1 — the
constructor computes hints but never evaluates the win condition, even
though that condition already holds — and the first flip of any
non-mine cell then transitions it to Won. -/
theorem zero_multiplier_board (level ts : ℤ) (config : Composition) (shuffled : List Cell)
    (h2 : config.twos = 0) (h3 : config.threes = 0)
    (hperm : shuffled.Perm (generate_cells config)) :
    (Board.init level ts (toGrid shuffled)).win = false ∧
    (Board.init level ts (toGrid shuffled)).game_over = false ∧
    (Board.init level ts (toGrid shuffled)).score = 1 ∧
    check_win (Board.init level ts (toGrid shuffled)) = true ∧
    (∀ r c : Fin 5,
      ((Board.init level ts (toGrid shuffled)).board r c).is_voltorb = false →
      (flipCellAt (Board.init level ts (toGrid shuffled)) r c).win = true) := by
  have hcells : ∀ i j : Fin 5,
      (toGrid shuffled i j).value ≤ 1 ∧ (toGrid shuffled i j).flipped = false := by
    intro i j
    show (shuffled.getD (i.val * 5 + j.val) (mkCell 0 false)).value ≤ 1 ∧
      (shuffled.getD (i.val * 5 + j.val) (mkCell 0 false)).flipped = false
    rcases getD_default_or_mem shuffled (i.val * 5 + j.val) (mkCell 0 false) with h | h
    · rw [h]
      exact ⟨by norm_num [mkCell], rfl⟩
    · exact generate_cells_no_multiplier config h2 h3 _ (hperm.mem_iff.mp h)
  refine ⟨rfl, rfl, rfl, ?_, ?_⟩
  · rw [check_win_iff]
    intro i j hv
    have hv2 : 1 < (toGrid shuffled i j).value := hv
    have := (hcells i j).1
    omega
  · intro r c hm
    have hf : ((Board.init level ts (toGrid shuffled)).board r c).flipped = false :=
      (hcells r c).2
    rw [flipCellAt_safe _ r c hf hm]
    have hcw : check_win (flipSafeResult (Board.init level ts (toGrid shuffled)) r c) = true := by
      rw [check_win_iff]
      intro i j hv
      exfalso
      by_cases hij : i = r ∧ j = c
      · have hb : (flipSafeResult (Board.init level ts (toGrid shuffled)) r c).board i j =
            { toGrid shuffled r c with flipped := true } := by
          simp [flipSafeResult, setCell, hij, Board.init]
        rw [hb] at hv
        have hv2 : 1 < (toGrid shuffled r c).value := hv
        have := (hcells r c).1
        omega
      · have hb : (flipSafeResult (Board.init level ts (toGrid shuffled)) r c).board i j =
            toGrid shuffled i j := by
          simp [flipSafeResult, setCell, hij, Board.init]
        rw [hb] at hv
        have := (hcells i j).1
        omega
    rw [if_pos hcw]

/-- C3 witness: the amended zero-multiplier property instantiated on
the concrete composition with six mines and the identity shuffle. -/
theorem zero_multiplier_board_witness :
    (compC3.twos = 0 ∧ compC3.threes = 0 ∧
     (generate_cells compC3).Perm (generate_cells compC3)) ∧
    ((Board.init 1 0 (toGrid (generate_cells compC3))).win = false ∧
     (Board.init 1 0 (toGrid (generate_cells compC3))).game_over = false ∧
     (Board.init 1 0 (toGrid (generate_cells compC3))).score = 1 ∧
     check_win (Board.init 1 0 (toGrid (generate_cells compC3))) = true ∧
     (∀ r c : Fin 5,
       ((Board.init 1 0 (toGrid (generate_cells compC3))).board r c).is_voltorb = false →
       (flipCellAt (Board.init 1 0 (toGrid (generate_cells compC3))) r c).win = true)) :=
  ⟨⟨rfl, rfl, List.Perm.refl _⟩,
   zero_multiplier_board 1 0 compC3 (generate_cells compC3) rfl rfl (List.Perm.refl _)⟩

/-- C5: for a level of at least 1 and two uniform draws, the decrease
chance is min(0.9, 0.10 + 0.05 x (level - 1)) and never exceeds 0.9; a
first draw at or above it returns the level unchanged and consumes only
that draw; otherwise the second draw selects a decrease of 1 (below
0.70), of 2 (between 0.70 and 0.90) or a reset to level 1 (at or above
0.90), and the returned level is never below 1. -/
theorem calculate_level_decrease_spec (level : ℤ) (r1 r2 : ℚ) (rest : List ℚ)
    (hlev : 1 ≤ level) (h1a : 0 ≤ r1) (h1b : r1 < 1) (h2a : 0 ≤ r2) (h2b : r2 < 1) :
    specDecreaseChance level ≤ 9/10 ∧
    (specDecreaseChance level ≤ r1 →
      calculate_level_decrease level (r1 :: r2 :: rest) =
        some ((level, "no change"), r2 :: rest)) ∧
    (r1 < specDecreaseChance level →
      (r2 < 7/10 →
        calculate_level_decrease level (r1 :: r2 :: rest) =
          some ((max 1 (level - 1), "decreased by 1"), rest)) ∧
      (7/10 ≤ r2 → r2 < 9/10 →
        calculate_level_decrease level (r1 :: r2 :: rest) =
          some ((max 1 (level - 2), "decreased by 2"), rest)) ∧
      (9/10 ≤ r2 →
        calculate_level_decrease level (r1 :: r2 :: rest) =
          some ((1, "reset to Level 1"), rest))) ∧
    (∀ out rest2,
      calculate_level_decrease level (r1 :: r2 :: rest) = some (out, rest2) →
      1 ≤ out.1) := by
  have hdc : (if (1/10 + ((level : ℚ) - 1) * (1/20)) > 9/10 then (9/10 : ℚ)
      else 1/10 + ((level : ℚ) - 1) * (1/20)) = specDecreaseChance level := by
    unfold specDecreaseChance
    split_ifs with h
    · exact (min_eq_left (le_of_lt h)).symm
    · exact (min_eq_right (le_of_not_lt h)).symm
  simp only [calculate_level_decrease]
  rw [hdc]
  refine ⟨min_le_left _ _, fun hge => ?_, fun hlt => ?_, ?_⟩
  · rw [if_neg (not_lt.mpr hge)]
  · rw [if_pos hlt]
    refine ⟨fun ha => by rw [if_pos ha], fun hb hc => ?_, fun hd => ?_⟩
    · rw [if_neg (not_lt.mpr hb), if_pos (by linarith : r2 < 7/10 + 2/10)]
    · rw [if_neg (not_lt.mpr (by linarith : 7/10 ≤ r2)),
        if_neg (not_lt.mpr (by linarith : 7/10 + 2/10 ≤ r2))]
  · intro out rest2 hout
    split_ifs at hout with hA hB hC
    · simp only [Option.some.injEq, Prod.mk.injEq] at hout
      rw [← hout.1]
      exact le_max_left 1 (level - 1)
    · simp only [Option.some.injEq, Prod.mk.injEq] at hout
      rw [← hout.1]
      exact le_max_left 1 (level - 2)
    · simp only [Option.some.injEq, Prod.mk.injEq] at hout
      rw [← hout.1]
    · simp only [Option.some.injEq, Prod.mk.injEq] at hout
      rw [← hout.1]
      exact hlev

/-- C5 witness: the level-decrease contract instantiated at level 3
with both draws equal to 0: the decrease chance is 1/5 and the call
returns level 2 with the message of a decrease by 1. -/
theorem calculate_level_decrease_spec_witness :
    ((1 : ℤ) ≤ 3 ∧ (0 : ℚ) ≤ 0 ∧ (0 : ℚ) < 1 ∧ (0 : ℚ) ≤ 0 ∧ (0 : ℚ) < 1) ∧
    (specDecreaseChance 3 ≤ 9/10 ∧
     (specDecreaseChance 3 ≤ 0 →
       calculate_level_decrease 3 [0, 0] = some ((3, "no change"), [0])) ∧
     ((0 : ℚ) < specDecreaseChance 3 →
       ((0 : ℚ) < 7/10 →
         calculate_level_decrease 3 [0, 0] =
           some ((max 1 (3 - 1), "decreased by 1"), [])) ∧
       ((7 : ℚ)/10 ≤ 0 → (0 : ℚ) < 9/10 →
         calculate_level_decrease 3 [0, 0] =
           some ((max 1 (3 - 2), "decreased by 2"), [])) ∧
       ((9 : ℚ)/10 ≤ 0 →
         calculate_level_decrease 3 [0, 0] = some ((1, "reset to Level 1"), []))) ∧
     (∀ out rest2, calculate_level_decrease 3 [0, 0] = some (out, rest2) → 1 ≤ out.1)) :=
  ⟨⟨by norm_num, le_refl 0, by norm_num, le_refl 0, by norm_num⟩,
   calculate_level_decrease_spec 3 0 0 []
     (by norm_num) (le_refl 0) (by norm_num) (le_refl 0) (by norm_num)⟩

/-- C6 counterexample: persisted bytes that pickle.load rejects make
load_score raise — the exception propagates to the caller instead of
degrading to defaults. -/
theorem load_score_corrupt_raises : load_score .corrupt = .error () := rfl

/-- C6 amended: load_score returns (0, 0) when no file exists, recovers
a legacy bare-integer save as that integer with high score 0, reads the
dict shape with missing fields defaulting to 0, and passes any other
decoded value through as the total score; but bytes that fail to
unpickle raise, and that error is the only failing case. -/
theorem load_score_spec :
    load_score .absent = .ok (.int 0, 0) ∧
    (∀ n : ℤ, load_score (.stored (.pint n)) = .ok (.int n, 0)) ∧
    (∀ t h : Option ℤ,
      load_score (.stored (.pdict t h)) = .ok (.int (t.getD 0), h.getD 0)) ∧
    load_score (.stored .pother) = .ok (.other, 0) ∧
    (∀ s : Storage, load_score s = .error () ↔ s = .corrupt) := by
  refine ⟨rfl, fun n => rfl, fun t h => rfl, rfl, fun s => ?_⟩
  cases s with
  | absent => simp [load_score]
  | corrupt => simp [load_score]
  | stored d => cases d <;> simp [load_score]

/-- C7 counterexample: a flip or mark outside the 5 x 5 bounds is not a
safe no-op: an index of 5 or more raises IndexError, and a negative
index wraps around Python-style and mutates a real cell. -/
theorem out_of_range_not_noop :
    flip_cell exBoard 5 0 = none ∧
    toggle_mark exBoard 0 7 = none ∧
    flip_cell exBoard (-1) 0 = some (flipCellAt exBoard 4 0) ∧
    (flipCellAt exBoard 4 0).board 4 0 ≠ exBoard.board 4 0 := by
  decide

/-- C7 amended: flip_cell and toggle_mark raise IndexError (modelled as
none) for any coordinate below -5 or at 5 and above, and coordinates in
[-5, 0) wrap around to index + 5 and operate on that cell; the in-range
guarantee is the caller's job, since the game loop only produces
coordinates in [0, 5). -/
theorem flip_cell_out_of_range (b : Board) (row col : ℤ)
    (h : row < -5 ∨ 5 ≤ row ∨ col < -5 ∨ 5 ≤ col) :
    (flip_cell b row col = none ∧ toggle_mark b row col = none) ∧
    (∀ row2 col2 : ℤ, -5 ≤ row2 → row2 < 0 → 0 ≤ col2 → col2 < 5 →
      ∃ r c : Fin 5, (r : ℤ) = row2 + 5 ∧ (c : ℤ) = col2 ∧
        flip_cell b row2 col2 = some (flipCellAt b r c) ∧
        toggle_mark b row2 col2 = some (toggleMarkAt b r c)) := by
  have hnone : ∀ i : ℤ, i < -5 ∨ 5 ≤ i → pyIndex i = none := by
    intro i hi
    unfold pyIndex
    rw [dif_neg (by omega), dif_neg (by omega)]
  constructor
  · rcases h with h | h | h | h
    · simp [flip_cell, toggle_mark, hnone row (Or.inl h)]
    · simp [flip_cell, toggle_mark, hnone row (Or.inr h)]
    · rcases hrow : pyIndex row with _ | r <;>
        simp [flip_cell, toggle_mark, hrow, hnone col (Or.inl h)]
    · rcases hrow : pyIndex row with _ | r <;>
        simp [flip_cell, toggle_mark, hrow, hnone col (Or.inr h)]
  · intro row2 col2 ha hb hc hd
    have hr : pyIndex row2 = some ⟨(row2 + 5).toNat, by omega⟩ := by
      unfold pyIndex
      rw [dif_neg (by omega), dif_pos (⟨by omega, by omega⟩ : -5 ≤ row2 ∧ row2 < 0)]
    have hcc : pyIndex col2 = some ⟨col2.toNat, by omega⟩ := by
      unfold pyIndex
      rw [dif_pos (⟨hc, hd⟩ : 0 ≤ col2 ∧ col2 < 5)]
    refine ⟨⟨(row2 + 5).toNat, by omega⟩, ⟨col2.toNat, by omega⟩, ?_, ?_, ?_, ?_⟩
    · show ((row2 + 5).toNat : ℤ) = row2 + 5
      exact Int.toNat_of_nonneg (by omega)
    · show ((col2).toNat : ℤ) = col2
      exact Int.toNat_of_nonneg (by omega)
    · simp [flip_cell, hr, hcc]
    · simp [toggle_mark, hr, hcc]

/-- C7 witness: the out-of-range behaviour instantiated on the concrete
level-1 board at row 5. -/
theorem flip_cell_out_of_range_witness :
    ((5 : ℤ) < -5 ∨ (5 : ℤ) ≤ 5 ∨ (0 : ℤ) < -5 ∨ (5 : ℤ) ≤ 0) ∧
    ((flip_cell exBoard 5 0 = none ∧ toggle_mark exBoard 5 0 = none) ∧
     (∀ row2 col2 : ℤ, -5 ≤ row2 → row2 < 0 → 0 ≤ col2 → col2 < 5 →
       ∃ r c : Fin 5, (r : ℤ) = row2 + 5 ∧ (c : ℤ) = col2 ∧
         flip_cell exBoard row2 col2 = some (flipCellAt exBoard r c) ∧
         toggle_mark exBoard row2 col2 = some (toggleMarkAt exBoard r c))) :=
  ⟨Or.inr (Or.inl (by norm_num)),
   flip_cell_out_of_range exBoard 5 0 (Or.inr (Or.inl (by norm_num)))⟩

/-- C8: spending points succeeds exactly when the total score is at
least 100, raising the level by 1 and deducting 100 points, and is
otherwise rejected with both values unchanged; in particular (3, 50) is
rejected unchanged and (3, 150) becomes (4, 50). -/
theorem spend_points_spec (level total_score : ℤ) :
    (100 ≤ total_score →
      spend_points level total_score = (level + 1, total_score - 100, true)) ∧
    (total_score < 100 →
      spend_points level total_score = (level, total_score, false)) ∧
    spend_points 3 50 = (3, 50, false) ∧
    spend_points 3 150 = (4, 50, true) := by
  refine ⟨fun h => by rw [spend_points, if_pos h], fun h => ?_, by decide, by decide⟩
  rw [spend_points, if_neg (not_le.mpr h)]

/-- C8 witness: the spend-points contract instantiated at the two
scenario inputs (3, 150) accepted and (3, 50) rejected. -/
theorem spend_points_spec_witness :
    (100 ≤ (150 : ℤ) ∧ spend_points 3 150 = (4, 50, true)) ∧
    ((50 : ℤ) < 100 ∧ spend_points 3 50 = (3, 50, false)) :=
  ⟨⟨by norm_num, (spend_points_spec 3 150).1 (by norm_num)⟩,
   ⟨by norm_num, (spend_points_spec 3 50).2.1 (by norm_num)⟩⟩

theorem lookup_none_of_gt (level : ℤ) (h : 8 < level) :
    LEVEL_CONFIGURATIONS.lookup level = none := by
  have h1 : (level == (1 : ℤ)) = false := beq_eq_false_iff_ne.mpr (by omega)
  have h2 : (level == (2 : ℤ)) = false := beq_eq_false_iff_ne.mpr (by omega)
  have h3 : (level == (3 : ℤ)) = false := beq_eq_false_iff_ne.mpr (by omega)
  have h4 : (level == (4 : ℤ)) = false := beq_eq_false_iff_ne.mpr (by omega)
  have h5 : (level == (5 : ℤ)) = false := beq_eq_false_iff_ne.mpr (by omega)
  have h6 : (level == (6 : ℤ)) = false := beq_eq_false_iff_ne.mpr (by omega)
  have h7 : (level == (7 : ℤ)) = false := beq_eq_false_iff_ne.mpr (by omega)
  have h8 : (level == (8 : ℤ)) = false := beq_eq_false_iff_ne.mpr (by omega)
  simp [LEVEL_CONFIGURATIONS, List.lookup, h1, h2, h3, h4, h5, h6, h7, h8]

theorem compositionsFor_clamp (level : ℤ) (h : 8 < level) :
    compositionsFor level = compositionsFor 8 := by
  unfold compositionsFor
  rw [lookup_none_of_gt level h]
  rfl

/-- C9: for every level of at least 1, the catalog lookup yields a
non-empty list of compositions whose counts fit on the 25-cell grid,
and any level above the highest defined key 8 falls back to the level-8
compositions. -/
theorem compositionsFor_spec (level : ℤ) (h : 1 ≤ level) :
    compositionsFor level ≠ [] ∧
    (∀ comp ∈ compositionsFor level,
      comp.voltorbs + comp.twos + comp.threes ≤ 25) ∧
    (8 < level → compositionsFor level = compositionsFor 8) := by
  by_cases h8 : level ≤ 8
  · interval_cases level <;>
      exact ⟨by decide, by decide, fun hc => absurd hc (by omega)⟩
  · have hgt : 8 < level := by omega
    rw [compositionsFor_clamp level hgt]
    exact ⟨by decide, by decide, fun _ => rfl⟩

/-- C9 witness: the catalog contract instantiated at level 10, beyond
the highest defined key. -/
theorem compositionsFor_spec_witness :
    (1 : ℤ) ≤ 10 ∧
    (compositionsFor 10 ≠ [] ∧
     (∀ comp ∈ compositionsFor 10,
       comp.voltorbs + comp.twos + comp.threes ≤ 25) ∧
     (8 < (10 : ℤ) → compositionsFor 10 = compositionsFor 8)) :=
  ⟨by norm_num, compositionsFor_spec 10 (by norm_num)⟩

end Vflip
